import Mathlib

/-!
Verification of the ciciliya chat client core: the SSE frame decoder
(`chatAPI.streamMessage` in the api service module), the text normalizer
(`cleanMarkdownText`), and the session controller / conversation ledger
(`handleSubmit`, `handleRegularResponse`, `handleStreamingResponse`,
`addErrorMessage` in `ChatInterface.jsx`).

JavaScript strings are embedded as `List Char` (named `Str`); JS objects
produced by `JSON.parse` are embedded as the inductive `JValue`; the
absent value `undefined` is embedded as `Option.none` where a property
access can miss.
-/

set_option maxHeartbeats 1000000

abbrev Str := List Char

namespace JsStr

/-- Characters treated as whitespace by `String.prototype.trim`
(ASCII whitespace plus no-break space and BOM; the further Unicode
space characters do not occur in this development). -/
def isWhitespace (c : Char) : Bool :=
  c = ' ' || c = '\t' || c = '\n' || c = '\r' ||
  c = (Char.ofNat 11) || c = (Char.ofNat 12) ||
  c = (Char.ofNat 160) || c = (Char.ofNat 65279)

/-- Drop leading JS whitespace. -/
def trimLeft : Str → Str
  | [] => []
  | c :: rest => if isWhitespace c then trimLeft rest else c :: rest

/-- JS `String.prototype.trim`. -/
def trim (s : Str) : Str :=
  ((trimLeft s.reverse).reverse |> trimLeft)

/-- JS `String.prototype.startsWith` for a literal pattern. -/
def startsWith (pat s : Str) : Bool := pat.isPrefixOf s

/-- JS `String.prototype.endsWith` for a literal pattern. -/
def endsWith (pat s : Str) : Bool := pat.isSuffixOf s

/-- JS `String.prototype.split` with a single-character separator:
`"a\nb".split("\n") = ["a","b"]`, `"".split("\n") = [""]`,
`"a\n".split("\n") = ["a",""]`. -/
def splitOnChar (sep : Char) : Str → List Str
  | [] => [[]]
  | c :: rest =>
    if c = sep then [] :: splitOnChar sep rest
    else
      match splitOnChar sep rest with
      | [] => [[c]]
      | h :: t => (c :: h) :: t

/-- Work loop of `replaceAll`. The fuel argument only forces structural
recursion; it never runs out when initialized with the input's length,
because each step consumes at least one input character. -/
def replaceAllGo (pat rep : Str) : Nat → Str → Str
  | 0, s => s
  | _ + 1, [] => []
  | fuel + 1, c :: rest =>
    if pat ≠ [] ∧ pat.isPrefixOf (c :: rest) then
      rep ++ replaceAllGo pat rep fuel ((c :: rest).drop pat.length)
    else
      c :: replaceAllGo pat rep fuel rest

/-- JS `String.prototype.replace` with a global literal-text regex:
non-overlapping matches are replaced left to right and scanning resumes
after the replacement text (the replacement is not rescanned).
The patterns used by the source are all nonempty. -/
def replaceAll (pat rep s : Str) : Str :=
  replaceAllGo pat rep s.length s

end JsStr

/-! ## JSON values and `JSON.parse`

`JSON.parse` is embedded by a recursive-descent parser over `Str`,
returning `none` exactly when the JS call would throw a `SyntaxError`.
Numbers are kept as their source lexeme: no claim in this development
depends on numeric value semantics, only on parse success or failure. -/

inductive JValue where
  | null : JValue
  | bool (b : Bool) : JValue
  | num (lexeme : Str) : JValue
  | str (s : Str) : JValue
  | arr (elems : List JValue) : JValue
  | obj (fields : List (Str × JValue)) : JValue

namespace Json

open JsStr

def skipWs : Str → Str
  | [] => []
  | c :: rest => if isWhitespace c then skipWs rest else c :: rest

def isDigit (c : Char) : Bool := '0' ≤ c && c ≤ '9'

def isHexDigit (c : Char) : Bool :=
  isDigit c || ('a' ≤ c && c ≤ 'f') || ('A' ≤ c && c ≤ 'F')

def hexVal (c : Char) : Nat :=
  if isDigit c then c.toNat - '0'.toNat
  else if 'a' ≤ c && c ≤ 'f' then c.toNat - 'a'.toNat + 10
  else c.toNat - 'A'.toNat + 10

/-- Parse the body of a JSON string after the opening quote; returns the
decoded contents and the remainder after the closing quote. -/
def parseStringBody (fuel : Nat) (s : Str) : Option (Str × Str) :=
  match fuel with
  | 0 => none
  | fuel + 1 =>
    match s with
    | [] => none
    | c :: rest =>
      if c = '"' then some ([], rest)
      else if c = '\\' then
        match rest with
        | [] => none
        | e :: rest2 =>
          if e = '"' then
            (parseStringBody fuel rest2).map (fun p => ('"' :: p.1, p.2))
          else if e = '\\' then
            (parseStringBody fuel rest2).map (fun p => ('\\' :: p.1, p.2))
          else if e = '/' then
            (parseStringBody fuel rest2).map (fun p => ('/' :: p.1, p.2))
          else if e = 'b' then
            (parseStringBody fuel rest2).map (fun p => (Char.ofNat 8 :: p.1, p.2))
          else if e = 'f' then
            (parseStringBody fuel rest2).map (fun p => (Char.ofNat 12 :: p.1, p.2))
          else if e = 'n' then
            (parseStringBody fuel rest2).map (fun p => ('\n' :: p.1, p.2))
          else if e = 'r' then
            (parseStringBody fuel rest2).map (fun p => ('\r' :: p.1, p.2))
          else if e = 't' then
            (parseStringBody fuel rest2).map (fun p => ('\t' :: p.1, p.2))
          else if e = 'u' then
            match rest2 with
            | h1 :: h2 :: h3 :: h4 :: rest3 =>
              if isHexDigit h1 && isHexDigit h2 && isHexDigit h3 && isHexDigit h4 then
                (parseStringBody fuel rest3).map (fun p =>
                  (Char.ofNat (((hexVal h1 * 16 + hexVal h2) * 16 + hexVal h3) * 16 + hexVal h4) :: p.1, p.2))
              else none
            | _ => none
          else none
      else if c.toNat < 32 then none
      else (parseStringBody fuel rest).map (fun p => (c :: p.1, p.2))

def takeDigits : Str → (Str × Str)
  | [] => ([], [])
  | c :: rest =>
    if isDigit c then
      let p := takeDigits rest
      (c :: p.1, p.2)
    else ([], c :: rest)

/-- Parse an optional exponent part of a JSON number, appending its
text to the lexeme accumulated so far. -/
def parseExpPart (lex : Str) (s : Str) : Option (Str × Str) :=
  match s with
  | c :: rest =>
    if c = 'e' || c = 'E' then
      let (sgn, s2) :=
        match rest with
        | '+' :: r => (['+'], r)
        | '-' :: r => (['-'], r)
        | _ => (([] : Str), rest)
      let p := takeDigits s2
      if p.1 = [] then none
      else some (lex ++ c :: sgn ++ p.1, p.2)
    else some (lex, c :: rest)
  | [] => some (lex, [])

/-- Parse an optional fraction part of a JSON number, then the optional
exponent part. -/
def parseFracPart (sign intPart : Str) (s : Str) : Option (Str × Str) :=
  match s with
  | '.' :: rest =>
    let p := takeDigits rest
    if p.1 = [] then none
    else parseExpPart (sign ++ intPart ++ '.' :: p.1) p.2
  | _ => parseExpPart (sign ++ intPart) s

/-- Parse a JSON number, returning its lexeme and the remainder. -/
def parseNumberLex (s : Str) : Option (Str × Str) :=
  let (sign, s1) :=
    match s with
    | '-' :: rest => (['-'], rest)
    | _ => (([] : Str), s)
  match s1 with
  | [] => none
  | c :: rest =>
    if c = '0' then
      parseFracPart sign [c] rest
    else if isDigit c then
      let p := takeDigits rest
      parseFracPart sign (c :: p.1) p.2
    else none

mutual

/-- Parse one JSON value (leading whitespace allowed). -/
def parseValue (fuel : Nat) (s : Str) : Option (JValue × Str) :=
  match fuel with
  | 0 => none
  | fuel + 1 =>
    match skipWs s with
    | [] => none
    | c :: rest =>
      if c = '"' then
        (parseStringBody (rest.length + 1) rest).map (fun p => (JValue.str p.1, p.2))
      else if c = '\x7b' then
        match skipWs rest with
        | '\x7d' :: rest2 => some (JValue.obj [], rest2)
        | s2 => (parseFields fuel s2).map (fun p => (JValue.obj p.1, p.2))
      else if c = '[' then
        match skipWs rest with
        | ']' :: rest2 => some (JValue.arr [], rest2)
        | s2 => (parseElems fuel s2).map (fun p => (JValue.arr p.1, p.2))
      else if JsStr.startsWith ['t', 'r', 'u', 'e'] (c :: rest) then
        some (JValue.bool true, (c :: rest).drop 4)
      else if JsStr.startsWith ['f', 'a', 'l', 's', 'e'] (c :: rest) then
        some (JValue.bool false, (c :: rest).drop 5)
      else if JsStr.startsWith ['n', 'u', 'l', 'l'] (c :: rest) then
        some (JValue.null, (c :: rest).drop 4)
      else
        (parseNumberLex (c :: rest)).map (fun p => (JValue.num p.1, p.2))

/-- Parse the elements of a nonempty array (after the opening bracket). -/
def parseElems (fuel : Nat) (s : Str) : Option (List JValue × Str) :=
  match fuel with
  | 0 => none
  | fuel + 1 =>
    match parseValue fuel s with
    | none => none
    | some (v, r) =>
      match skipWs r with
      | ',' :: r2 =>
        (parseElems fuel r2).map (fun p => (v :: p.1, p.2))
      | ']' :: r2 => some ([v], r2)
      | _ => none

/-- Parse the fields of a nonempty object (after the opening brace). -/
def parseFields (fuel : Nat) (s : Str) : Option (List (Str × JValue) × Str) :=
  match fuel with
  | 0 => none
  | fuel + 1 =>
    match skipWs s with
    | '"' :: rest =>
      match parseStringBody (rest.length + 1) rest with
      | none => none
      | some (key, r) =>
        match skipWs r with
        | ':' :: r2 =>
          match parseValue fuel r2 with
          | none => none
          | some (v, r3) =>
            match skipWs r3 with
            | ',' :: r4 =>
              (parseFields fuel r4).map (fun p => ((key, v) :: p.1, p.2))
            | '\x7d' :: r4 => some ([(key, v)], r4)
            | _ => none
        | _ => none
    | _ => none

end

/-- JS `JSON.parse`: parse one value and require only whitespace after it. -/
def jsonParse (s : Str) : Option JValue :=
  match parseValue (2 * s.length + 8) s with
  | some (v, rest) => if skipWs rest = [] then some v else none
  | none => none

/-- JS property access on a parse result: on an object, the value of the
last field with the given key (`JSON.parse` keeps the last duplicate);
on every other value the access yields `undefined` (or throws, for
`null` — the source catches that throw, with the same net effect). -/
def getField (v : JValue) (key : Str) : Option JValue :=
  match v with
  | JValue.obj fields => (fields.reverse.find? (fun f => f.1 = key)).map Prod.snd
  | _ => none

end Json

/-! ## SSE frame decoder (`chatAPI.streamMessage`, read loop)

The source reads transport chunks in a loop; each chunk is split on
newline **independently, with no carry-over buffer between chunks**:
lines beginning with `data: ` have the prefix stripped and the rest
passed to `JSON.parse`; a parse failure is logged and the loop
continues; the parsed value's `type` field selects which callback is
invoked (unknown types fall through the `switch` with no effect). -/

/-- A decoded protocol event, tagged by the `type` discriminator, with
the raw type-specific payload the source reads (`data.content`,
`data.sources`, `data.error`; `none` embeds an absent property). -/
inductive SseEvent where
  | token (content : Option JValue) : SseEvent
  | sources (sources : Option JValue) : SseEvent
  | error (err : Option JValue) : SseEvent
  | done : SseEvent

/-- The `data: ` line marker. -/
def sseDataTag : Str := "data: ".toList

/-- The `switch (data.type)` dispatch on one successfully parsed frame. -/
def frameEvent (data : JValue) : Option SseEvent :=
  match Json.getField data ("type".toList) with
  | some (JValue.str t) =>
    if t = "token".toList then some (SseEvent.token (Json.getField data ("content".toList)))
    else if t = "sources".toList then some (SseEvent.sources (Json.getField data ("sources".toList)))
    else if t = "error".toList then some (SseEvent.error (Json.getField data ("error".toList)))
    else if t = "done".toList then some SseEvent.done
    else none
  | _ => none

/-- Processing of one line of a chunk: lines without the `data: ` marker
are skipped; the rest of a marked line is parsed as JSON, a parse
failure being swallowed (the `try`/`catch` logs and continues). -/
def decodeLine (line : Str) : Option SseEvent :=
  if JsStr.startsWith sseDataTag line then
    match Json.jsonParse (line.drop 6) with
    | some data => frameEvent data
    | none => none
  else none

/-- Processing of one transport chunk: `chunk.split('\n')` followed by
the per-line loop. -/
def decodeChunk (chunk : Str) : List SseEvent :=
  (JsStr.splitOnChar '\n' chunk).filterMap decodeLine

/-- The whole read loop: each chunk is decoded on its own — the events
of the stream are the concatenation of the per-chunk decodings, since
no state is carried from one chunk to the next. -/
def decodeChunks (chunks : List Str) : List SseEvent :=
  (chunks.map decodeChunk).flatten

/-! ## `chatAPI.streamMessage` as a whole

The outer `try`/`catch` spans the fetch, the status check and the read
loop: any transport-level failure (a thrown fetch error or a non-ok
status) reaches the `catch`, which invokes `onError` and returns
normally — `streamMessage` never rethrows, given that the four
callbacks themselves do not throw (in `ChatInterface.jsx` they are
plain state updates). A transport outcome is therefore either an
immediate failure, or a finite chunk sequence possibly ending in a
mid-stream read failure. -/

inductive Transport where
  /-- `fetch` threw, or `response.ok` was false. -/
  | httpError : Transport
  /-- The body delivered these chunks; `midFail` tells whether a read
  then threw (caught by the same `catch`) instead of ending cleanly. -/
  | stream (chunks : List Str) (midFail : Bool) : Transport

/-- One callback invocation made by `streamMessage`. The argument of
`onError` is dropped: the error handler in `ChatInterface.jsx` ignores
its argument. `onDone` takes no argument. -/
inductive Cb where
  | token (content : Option JValue) : Cb
  | sources (sources : Option JValue) : Cb
  | error : Cb
  | done : Cb

def eventCb : SseEvent → Cb
  | SseEvent.token c => Cb.token c
  | SseEvent.sources s => Cb.sources s
  | SseEvent.error _ => Cb.error
  | SseEvent.done => Cb.done

/-- The ordered callback invocations `chatAPI.streamMessage` performs
for a given transport outcome. Total: every failure path ends in the
`catch` that invokes `onError` — the promise never rejects. -/
def streamMessage : Transport → List Cb
  | Transport.httpError => [Cb.error]
  | Transport.stream chunks false => (decodeChunks chunks).map eventCb
  | Transport.stream chunks true => (decodeChunks chunks).map eventCb ++ [Cb.error]

/-! ## Text normalizer (`cleanMarkdownText`) -/

/-- Embedding of `cleanMarkdownText` from `ChatInterface.jsx`: trim; strip one pair
of wrapping double quotes; unescape the specific two-character escape
sequences in source order, the doubled-backslash collapse last. -/
def cleanMarkdownText (text : Str) : Str :=
  if text = [] then []
  else
    let cleaned := JsStr.trim text
    let cleaned :=
      if JsStr.startsWith ['"'] cleaned && JsStr.endsWith ['"'] cleaned then
        (cleaned.drop 1).dropLast
      else cleaned
    let cleaned := cleaned
      |> JsStr.replaceAll ['\\', 'n'] ['\n']
      |> JsStr.replaceAll ['\\', 't'] ['\t']
      |> JsStr.replaceAll ['\\', '"'] ['"']
      |> JsStr.replaceAll ['\\', '*'] ['*']
      |> JsStr.replaceAll ['\\', '#'] ['#']
      |> JsStr.replaceAll ['\\', '['] ['[']
      |> JsStr.replaceAll ['\\', ']'] [']']
      |> JsStr.replaceAll ['\\', '('] ['(']
      |> JsStr.replaceAll ['\\', ')'] [')']
      |> JsStr.replaceAll ['\\', '\\'] ['\\']
    cleaned

/-! ## JS string coercion for `streamedText += token`

`+=` coerces its right operand to a string: strings stay themselves,
`undefined` and `null` print their names, booleans print their names,
a number prints its decimal form (embedded here as its JSON lexeme),
an array prints as its elements joined with commas (`null` entries
joining as empty), and a plain object prints as `[object Object]`.
The fuel argument only forces structural recursion; `jsDisplay` seeds
it from the value's size. -/

/-- A size measure on JSON values, used only to seed the fuel of
`jsDisplayGo` with a bound on the recursion depth. -/
def jvSize : JValue → Nat
  | JValue.null => 1
  | JValue.bool _ => 1
  | JValue.num _ => 1
  | JValue.str _ => 1
  | JValue.arr es => 1 + (es.attach.map (fun x => jvSize x.1)).sum
  | JValue.obj fs => 1 + (fs.attach.map (fun x => jvSize x.1.2)).sum
termination_by v => sizeOf v
decreasing_by
  · have h := List.sizeOf_lt_of_mem x.2
    simp only [JValue.arr.sizeOf_spec]
    omega
  · have h := List.sizeOf_lt_of_mem x.2
    have h2 : sizeOf x.1.2 < sizeOf x.1 := by
      obtain ⟨⟨a, b⟩, hm⟩ := x
      simp
    simp only [JValue.obj.sizeOf_spec]
    omega

inductive JDispArg where
  | one (v : JValue) : JDispArg
  | elems (es : List JValue) : JDispArg

def jsDisplayGo : Nat → JDispArg → Str
  | 0, _ => []
  | _ + 1, JDispArg.one JValue.null => "null".toList
  | _ + 1, JDispArg.one (JValue.bool true) => "true".toList
  | _ + 1, JDispArg.one (JValue.bool false) => "false".toList
  | _ + 1, JDispArg.one (JValue.num lex) => lex
  | _ + 1, JDispArg.one (JValue.str s) => s
  | _ + 1, JDispArg.one (JValue.obj _) => "[object Object]".toList
  | fuel + 1, JDispArg.one (JValue.arr es) => jsDisplayGo fuel (JDispArg.elems es)
  | _ + 1, JDispArg.elems [] => []
  | fuel + 1, JDispArg.elems [JValue.null] => jsDisplayGo fuel (JDispArg.elems [])
  | fuel + 1, JDispArg.elems [e] => jsDisplayGo fuel (JDispArg.one e)
  | fuel + 1, JDispArg.elems (JValue.null :: rest) =>
      ',' :: jsDisplayGo fuel (JDispArg.elems rest)
  | fuel + 1, JDispArg.elems (e :: rest) =>
      jsDisplayGo fuel (JDispArg.one e) ++ ',' :: jsDisplayGo fuel (JDispArg.elems rest)

/-- String coercion of a possibly absent property value. -/
def jsDisplay : Option JValue → Str
  | none => "undefined".toList
  | some v => jsDisplayGo (2 * jvSize v + 2) (JDispArg.one v)

/-! ## Conversation ledger and session controller (`ChatInterface.jsx`)

A message object as built by the source. User messages and the regular
(non-streaming) bot messages carry no `isStreaming` key and the user
message carries no `sources` key; an absent key reads as `undefined`,
which every use site treats as `false` resp. an absent list, embedded
here as the defaults `false` and `none`. -/

inductive Sender where
  | user : Sender
  | bot : Sender
deriving DecidableEq

structure Message where
  id : Nat
  text : Str
  sender : Sender
  sources : Option JValue := none
  isStreaming : Bool := false

/-- The component state touched by the submit flow: the message list
and the busy flag. (`Date.now()` readings are passed in as arguments.) -/
structure ChatState where
  messages : List Message
  isLoading : Bool

/-- The fixed failure text the streaming error callback writes. -/
def streamErrorText : Str := "Sorry, an error occurred.".toList

/-- The fixed failure text of `addErrorMessage` in `handleSubmit`'s
`catch` (the text contains an apostrophe, code point 39). -/
def regularFailText : Str :=
  "Sorry, I couldn".toList ++ [Char.ofNat 39] ++
  "t process your request. Please try again.".toList

/-- Fold state of `handleStreamingResponse`: the message list plus the
closed-over accumulator `streamedText`. -/
structure StreamFold where
  msgs : List Message
  streamedText : Str

/-- One callback invocation of `handleStreamingResponse`, acting on the
message list exactly as the four `setMessages` closures do:
`onToken` appends to `streamedText` and rewrites the bot message's text
to the whole accumulation; `onSources` replaces its sources; `onError`
overwrites the text with the fixed failure string and clears the
streaming flag; `onDone` clears the streaming flag. Every update maps
over the list, touching only messages whose id is `bid`. -/
def applyCb (bid : Nat) (st : StreamFold) : Cb → StreamFold
  | Cb.token c =>
    let newText := st.streamedText ++ jsDisplay c
    { msgs := st.msgs.map (fun m =>
        if m.id = bid then { m with text := newText } else m),
      streamedText := newText }
  | Cb.sources s =>
    { st with msgs := st.msgs.map (fun m =>
        if m.id = bid then { m with sources := s } else m) }
  | Cb.error =>
    { st with msgs := st.msgs.map (fun m =>
        if m.id = bid then { m with text := streamErrorText, isStreaming := false } else m) }
  | Cb.done =>
    { st with msgs := st.msgs.map (fun m =>
        if m.id = bid then { m with isStreaming := false } else m) }

/-- The user message built by `handleSubmit` (`id: Date.now()`). -/
def userMessage (now : Nat) (input : Str) : Message :=
  { id := now, text := input, sender := Sender.user }

/-- The open bot placeholder `handleStreamingResponse` appends. -/
def botPlaceholder (bid : Nat) : Message :=
  { id := bid, text := [], sender := Sender.bot,
    sources := some (JValue.arr []), isStreaming := true }

/-- Embedding of `handleStreamingResponse`: append the placeholder, then run every
callback invocation of `streamMessage` in order. `now2` is the
`Date.now()` reading taken when the handler starts (`botMessageId` is
`now2 + 1`). -/
def handleStreamingResponse (now2 : Nat) (tr : Transport) (msgs : List Message) :
    List Message :=
  let bid := now2 + 1
  (List.foldl (applyCb bid)
    { msgs := msgs ++ [botPlaceholder bid], streamedText := [] }
    (streamMessage tr)).msgs

/-- Result of the non-streaming request (`chatAPI.sendMessage`):
either the parsed `{answer, sources}` body, or a thrown error (non-ok
status or fetch failure, rethrown by `sendMessage`). The source reads
`response.answer` into the message text; the claims concern string
answers, so the answer is embedded as a string. -/
inductive RegularResult where
  | success (answer : Str) (sources : Option JValue) : RegularResult
  | failure : RegularResult

/-- What one accepted submission's request does, chosen by the
`useStreaming` flag. -/
inductive Outcome where
  | streaming (tr : Transport) : Outcome
  | regular (r : RegularResult) : Outcome

/-- Appends of the regular path: `handleRegularResponse` on success appends the closed bot message
built from the response (no `isStreaming` key). On failure the thrown
error propagates to `handleSubmit`'s `catch`, which appends
`addErrorMessage`'s message instead; both appends use a fresh
`Date.now() + 1` id, embedded as `now2 + 1`. -/
def regularAppend (now2 : Nat) (msgs : List Message) : RegularResult → List Message
  | RegularResult.success answer sources =>
    msgs ++ [{ id := now2 + 1, text := answer, sender := Sender.bot,
               sources := sources }]
  | RegularResult.failure =>
    msgs ++ [{ id := now2 + 1, text := regularFailText, sender := Sender.bot }]

/-- A transport request as issued by the api module:
the query string and the `stream` flag. -/
structure Request where
  query : Str
  stream : Bool
deriving DecidableEq

/-- Result of `handleSubmit`: the new component state and the transport
requests issued during the call. -/
structure SubmitResult where
  state : ChatState
  requests : List Request

/-- Embedding of `handleSubmit`: a no-op unless the input trims nonempty and no
request is in flight; otherwise append the user message, mark busy,
run the selected path, and clear busy in the `finally`. The streaming
path cannot reach the `catch` (`streamMessage` never rejects), so
`addErrorMessage` runs only for the regular path's failure. -/
def handleSubmit (now now2 : Nat) (input : Str) (o : Outcome) (st : ChatState) :
    SubmitResult :=
  if JsStr.trim input ≠ [] ∧ st.isLoading = false then
    let msgs1 := st.messages ++ [userMessage now input]
    match o with
    | Outcome.streaming tr =>
      { state := { messages := handleStreamingResponse now2 tr msgs1,
                   isLoading := false },
        requests := [{ query := input, stream := true }] }
    | Outcome.regular r =>
      { state := { messages := regularAppend now2 msgs1 r, isLoading := false },
        requests := [{ query := input, stream := false }] }
  else
    { state := st, requests := [] }

/-- The text the presentation layer renders for a message
(`cleanMarkdownText(msg.text)` at the render site). -/
def renderedText (m : Message) : Str := cleanMarkdownText m.text

/-- Number of open (`isStreaming = true`) messages in a ledger. -/
def countStreaming (msgs : List Message) : Nat :=
  (msgs.filter (fun m => m.isStreaming)).length

/-! ## Submission runs and their ledger history -/

/-- Tells whether a callback closes the open message
(the `error` and `done` handlers both clear the streaming flag). -/
def isTerminalCb : Cb → Bool
  | Cb.error => true
  | Cb.done => true
  | _ => false

/-- Tells whether an outcome delivers a terminal signal for the open
message: a regular outcome always appends a closed message, while a
streaming outcome must contain an `error` or `done` callback (a
transport failure counts, since the `catch` invokes `onError`).
A stream that ends cleanly with no terminal frame is not terminated:
the placeholder stays open — the known gap of the source. -/
def outcomeTerminated : Outcome → Bool
  | Outcome.streaming tr => (streamMessage tr).any isTerminalCb
  | Outcome.regular _ => true

/-- One submission: the two `Date.now()` readings, the input box
content, and what the transport does. -/
structure Submission where
  now : Nat
  now2 : Nat
  input : Str
  outcome : Outcome

/-- The component state after one `handleSubmit` call. -/
def submitStep (sub : Submission) (st : ChatState) : ChatState :=
  (handleSubmit sub.now sub.now2 sub.input sub.outcome st).state

/-- Every ledger value a submission makes observable, in order: the
list after the user append, then (streaming) the list after the
placeholder append and after each callback, or (regular) the list
after the single bot append. A rejected submission observes nothing. -/
def submitLedgerStates (sub : Submission) (st : ChatState) : List (List Message) :=
  if JsStr.trim sub.input ≠ [] ∧ st.isLoading = false then
    let msgs1 := st.messages ++ [userMessage sub.now sub.input]
    match sub.outcome with
    | Outcome.streaming tr =>
      let bid := sub.now2 + 1
      msgs1 ::
        (List.scanl (applyCb bid)
          { msgs := msgs1 ++ [botPlaceholder bid], streamedText := [] }
          (streamMessage tr)).map StreamFold.msgs
    | Outcome.regular r => [msgs1, regularAppend sub.now2 msgs1 r]
  else []

/-- The ledger history of a whole run of submissions. -/
def runLedgerStates : List Submission → ChatState → List (List Message)
  | [], _ => []
  | sub :: rest, st =>
    submitLedgerStates sub st ++ runLedgerStates rest (submitStep sub st)

/-! ## Helper lemmas -/

theorem map_eq_self_of_fix {l : List Message} {f : Message → Message}
    (h : ∀ m ∈ l, f m = m) : l.map f = l := by
  conv_rhs => rw [show l = l.map id from (List.map_id l).symm]
  exact List.map_congr_left h

/-- Every callback application rewrites the message list pointwise,
with a function that keeps ids and senders, never opens a closed
message, and fixes every message whose id is not the bot id. -/
theorem applyCb_shape (bid : Nat) (st : StreamFold) (cb : Cb) :
    ∃ f : Message → Message,
      (applyCb bid st cb).msgs = st.msgs.map f ∧
      (∀ m, (f m).id = m.id) ∧
      (∀ m, (f m).sender = m.sender) ∧
      (∀ m, (f m).isStreaming = true → m.isStreaming = true) ∧
      (∀ m, m.id ≠ bid → f m = m) := by
  cases cb with
  | token c =>
    refine ⟨_, rfl, ?_, ?_, ?_, ?_⟩ <;>
      intro m <;> by_cases h : m.id = bid <;> simp [h]
  | sources s =>
    refine ⟨_, rfl, ?_, ?_, ?_, ?_⟩ <;>
      intro m <;> by_cases h : m.id = bid <;> simp [h]
  | error =>
    refine ⟨_, rfl, ?_, ?_, ?_, ?_⟩ <;>
      intro m <;> by_cases h : m.id = bid <;> simp [h]
  | done =>
    refine ⟨_, rfl, ?_, ?_, ?_, ?_⟩ <;>
      intro m <;> by_cases h : m.id = bid <;> simp [h]

theorem countStreaming_append (l1 l2 : List Message) :
    countStreaming (l1 ++ l2) = countStreaming l1 + countStreaming l2 := by
  simp [countStreaming, List.filter_append]

theorem countStreaming_eq_zero {l : List Message} :
    countStreaming l = 0 ↔ ∀ m ∈ l, m.isStreaming = false := by
  simp [countStreaming, List.length_eq_zero, List.filter_eq_nil_iff]

theorem countStreaming_map_le (f : Message → Message)
    (hf : ∀ m, (f m).isStreaming = true → m.isStreaming = true)
    (l : List Message) : countStreaming (l.map f) ≤ countStreaming l := by
  induction l with
  | nil => simp [countStreaming]
  | cons a t ih =>
    simp only [List.map_cons, countStreaming, List.filter_cons] at *
    by_cases h : (f a).isStreaming
    · have ha := hf a h
      simp [h, ha]
      omega
    · by_cases h2 : a.isStreaming <;> simp [h, h2] <;> omega

theorem applyCb_count_le (bid : Nat) (st : StreamFold) (cb : Cb) :
    countStreaming (applyCb bid st cb).msgs ≤ countStreaming st.msgs := by
  obtain ⟨f, heq, _, _, hstr, _⟩ := applyCb_shape bid st cb
  rw [heq]
  exact countStreaming_map_le f hstr _

theorem foldl_count_le (bid : Nat) (cbs : List Cb) (st : StreamFold) :
    countStreaming (List.foldl (applyCb bid) st cbs).msgs ≤
      countStreaming st.msgs := by
  induction cbs generalizing st with
  | nil => exact le_refl _
  | cons c t ih =>
    exact le_trans (ih (applyCb bid st c)) (applyCb_count_le bid st c)

/-- Open messages all carry the bot id. -/
def openOnly (bid : Nat) (msgs : List Message) : Prop :=
  ∀ m ∈ msgs, m.isStreaming = true → m.id = bid

theorem applyCb_openOnly (bid : Nat) (st : StreamFold) (cb : Cb)
    (h : openOnly bid st.msgs) : openOnly bid (applyCb bid st cb).msgs := by
  obtain ⟨f, heq, hid, _, hstr, _⟩ := applyCb_shape bid st cb
  rw [heq]
  intro m hm hs
  obtain ⟨m0, hm0, rfl⟩ := List.mem_map.mp hm
  rw [hid]
  exact h m0 hm0 (hstr m0 hs)

theorem applyCb_terminal_closes (bid : Nat) (st : StreamFold) (cb : Cb)
    (ht : isTerminalCb cb = true) :
    ∀ m ∈ (applyCb bid st cb).msgs, m.id = bid → m.isStreaming = false := by
  cases cb with
  | token c => simp [isTerminalCb] at ht
  | sources s => simp [isTerminalCb] at ht
  | error =>
    intro m hm hid
    obtain ⟨m0, _, rfl⟩ := List.mem_map.mp hm
    by_cases h : m0.id = bid
    · simp [h]
    · rw [if_neg h] at hid
      exact absurd hid h
  | done =>
    intro m hm hid
    obtain ⟨m0, _, rfl⟩ := List.mem_map.mp hm
    by_cases h : m0.id = bid
    · simp [h]
    · rw [if_neg h] at hid
      exact absurd hid h

theorem applyCb_terminal_zero (bid : Nat) (st : StreamFold) (cb : Cb)
    (ht : isTerminalCb cb = true) (h : openOnly bid st.msgs) :
    countStreaming (applyCb bid st cb).msgs = 0 := by
  rw [countStreaming_eq_zero]
  intro m hm
  by_cases hid : m.id = bid
  · exact applyCb_terminal_closes bid st cb ht m hm hid
  · cases hs : m.isStreaming
    · rfl
    · exact absurd (applyCb_openOnly bid st cb h m hm hs) hid

theorem foldl_terminal_zero (bid : Nat) (cbs : List Cb) (st : StreamFold)
    (h : openOnly bid st.msgs)
    (hterm : ∃ cb ∈ cbs, isTerminalCb cb = true) :
    countStreaming (List.foldl (applyCb bid) st cbs).msgs = 0 := by
  induction cbs generalizing st with
  | nil => exact absurd hterm (by simp)
  | cons c t ih =>
    rcases hterm with ⟨cb, hmem, hcb⟩
    rcases List.mem_cons.mp hmem with rfl | hmem2
    · have h0 := applyCb_terminal_zero bid st cb hcb h
      have hle := foldl_count_le bid t (applyCb bid st cb)
      rw [List.foldl_cons]
      omega
    · exact ih (applyCb bid st c) (applyCb_openOnly bid st c h) ⟨cb, hmem2, hcb⟩

theorem scanl_count_le_one (bid : Nat) (cbs : List Cb) (st : StreamFold)
    (h1 : countStreaming st.msgs ≤ 1) :
    ∀ ms ∈ (List.scanl (applyCb bid) st cbs).map StreamFold.msgs,
      countStreaming ms ≤ 1 := by
  induction cbs generalizing st with
  | nil =>
    intro ms hm
    simp only [List.scanl_nil, List.map_cons, List.map_nil] at hm
    rcases List.mem_singleton.mp hm with rfl
    exact h1
  | cons c t ih =>
    intro ms hm
    rw [List.scanl_cons] at hm
    simp only [List.singleton_append, List.map_cons] at hm
    rcases List.mem_cons.mp hm with rfl | hm2
    · exact h1
    · exact ih (applyCb bid st c)
        (le_trans (applyCb_count_le bid st c) h1) ms hm2

theorem replaceAllGo_eq_self (c0 : Char) (p r : Str) :
    ∀ fuel s, c0 ∉ s → JsStr.replaceAllGo (c0 :: p) r fuel s = s := by
  intro fuel
  induction fuel with
  | zero => intro s _; rfl
  | succ n ih =>
    intro s hs
    cases s with
    | nil => rfl
    | cons c rest =>
      show (if (c0 :: p) ≠ [] ∧ (c0 :: p).isPrefixOf (c :: rest) then _ else _) = _
      rw [if_neg]
      · rw [ih rest (fun h => hs (List.mem_cons_of_mem c h))]
      · rintro ⟨-, hpre⟩
        have h2 : ((c0 :: p).isPrefixOf (c :: rest)) = (c0 == c && p.isPrefixOf rest) := by
          simp [List.isPrefixOf]
        rw [h2] at hpre
        have hc : c0 = c := by
          have := (Bool.and_eq_true _ _).mp hpre
          exact beq_iff_eq.mp this.1
        exact hs (by rw [hc]; exact List.mem_cons_self c rest)

theorem replaceAll_eq_self (c0 : Char) (p r s : Str) (hc : c0 ∉ s) :
    JsStr.replaceAll (c0 :: p) r s = s :=
  replaceAllGo_eq_self c0 p r s.length s hc

/-- On an input that is already trimmed, not quote-wrapped, and free of
backslashes, the normalizer is the identity. -/
theorem cleanMarkdownText_eq_self (s : Str) (ht : JsStr.trim s = s)
    (hb : '\\' ∉ s)
    (hq : ¬(JsStr.startsWith ['"'] s = true ∧ JsStr.endsWith ['"'] s = true)) :
    cleanMarkdownText s = s := by
  by_cases hnil : s = []
  · subst hnil; rfl
  · have hqb : (JsStr.startsWith ['"'] s && JsStr.endsWith ['"'] s) = false := by
      cases h1 : JsStr.startsWith ['"'] s <;> cases h2 : JsStr.endsWith ['"'] s <;>
        simp_all
    simp only [cleanMarkdownText, if_neg hnil, ht, hqb, Bool.false_eq_true,
      if_false]
    rw [replaceAll_eq_self '\\' ['n'] ['\n'] s hb,
      replaceAll_eq_self '\\' ['t'] ['\t'] s hb,
      replaceAll_eq_self '\\' ['"'] ['"'] s hb,
      replaceAll_eq_self '\\' ['*'] ['*'] s hb,
      replaceAll_eq_self '\\' ['#'] ['#'] s hb,
      replaceAll_eq_self '\\' ['['] ['['] s hb,
      replaceAll_eq_self '\\' [']'] [']'] s hb,
      replaceAll_eq_self '\\' ['('] ['('] s hb,
      replaceAll_eq_self '\\' [')'] [')'] s hb,
      replaceAll_eq_self '\\' ['\\'] ['\\'] s hb]

theorem message_close_eta (m : Message) (h : m.isStreaming = false) :
    { m with isStreaming := false } = m := by
  cases m
  simp_all

theorem applyCb_done_eq_self (bid : Nat) (st : StreamFold)
    (h : ∀ m ∈ st.msgs, m.id = bid → m.isStreaming = false) :
    (applyCb bid st Cb.done).msgs = st.msgs := by
  show st.msgs.map _ = st.msgs
  apply map_eq_self_of_fix
  intro m hm
  by_cases hid : m.id = bid
  · rw [if_pos hid]
    exact message_close_eta m (h m hm hid)
  · rw [if_neg hid]

theorem foldl_done_only (bid : Nat) :
    ∀ post, (∀ cb ∈ post, cb = Cb.done) →
    ∀ st : StreamFold, (∀ m ∈ st.msgs, m.id = bid → m.isStreaming = false) →
    (List.foldl (applyCb bid) st post).msgs = st.msgs := by
  intro post
  induction post with
  | nil => intro _ st _; rfl
  | cons c t ih =>
    intro hpost st h
    have hc : c = Cb.done := hpost c (List.mem_cons_self c t)
    subst hc
    have hmsgs := applyCb_done_eq_self bid st h
    rw [List.foldl_cons,
      ih (fun cb hcb => hpost cb (List.mem_cons_of_mem _ hcb))
        (applyCb bid st Cb.done) (by rw [hmsgs]; exact h)]
    exact hmsgs

theorem foldl_prefix_shape (bid : Nat) :
    ∀ (cbs : List Cb) (st : StreamFold) (pre : List Message) (b : Message),
      st.msgs = pre ++ [b] → (∀ m ∈ pre, m.id ≠ bid) → b.id = bid →
      ∃ b2, (List.foldl (applyCb bid) st cbs).msgs = pre ++ [b2] ∧
        b2.id = bid ∧ b2.sender = b.sender := by
  intro cbs
  induction cbs with
  | nil =>
    intro st pre b hmsgs hpre hb
    exact ⟨b, by rw [List.foldl_nil, hmsgs], hb, rfl⟩
  | cons c t ih =>
    intro st pre b hmsgs hpre hb
    obtain ⟨f, heq, hid, hsender, _, hfix⟩ := applyCb_shape bid st c
    have hm2 : (applyCb bid st c).msgs = pre ++ [f b] := by
      rw [heq, hmsgs, List.map_append, List.map_cons, List.map_nil,
        map_eq_self_of_fix (fun m hm => hfix m (hpre m hm))]
    obtain ⟨b2, h1, h2, h3⟩ :=
      ih (applyCb bid st c) pre (f b) hm2 hpre (by rw [hid]; exact hb)
    exact ⟨b2, by rw [List.foldl_cons]; exact h1, h2, by rw [h3, hsender]⟩

theorem submit_inv (sub : Submission) (st : ChatState)
    (h0 : countStreaming st.messages = 0)
    (hterm : outcomeTerminated sub.outcome = true) :
    (∀ ms ∈ submitLedgerStates sub st, countStreaming ms ≤ 1) ∧
      countStreaming (submitStep sub st).messages = 0 := by
  by_cases hacc : JsStr.trim sub.input ≠ [] ∧ st.isLoading = false
  · have hcount1 :
        countStreaming (st.messages ++ [userMessage sub.now sub.input]) = 0 := by
      rw [countStreaming_append, h0]
      rfl
    cases houtcome : sub.outcome with
    | streaming tr =>
      have hopen : openOnly (sub.now2 + 1)
          ((st.messages ++ [userMessage sub.now sub.input]) ++
            [botPlaceholder (sub.now2 + 1)]) := by
        intro m hm hs
        rcases List.mem_append.mp hm with h | h
        · rw [(countStreaming_eq_zero.mp hcount1) m h] at hs
          exact Bool.noConfusion hs
        · rcases List.mem_singleton.mp h with rfl
          rfl
      have hinit : countStreaming
          ((st.messages ++ [userMessage sub.now sub.input]) ++
            [botPlaceholder (sub.now2 + 1)]) ≤ 1 := by
        rw [countStreaming_append, hcount1]
        simp [countStreaming, botPlaceholder]
      constructor
      · simp only [submitLedgerStates, if_pos hacc, houtcome]
        intro ms hms
        rcases List.mem_cons.mp hms with rfl | hms2
        · rw [hcount1]
          omega
        · exact scanl_count_le_one (sub.now2 + 1) (streamMessage tr) _ hinit ms hms2
      · simp only [submitStep, handleSubmit, if_pos hacc, houtcome,
          handleStreamingResponse]
        apply foldl_terminal_zero (sub.now2 + 1) _ _ hopen
        rw [houtcome] at hterm
        simpa [outcomeTerminated, List.any_eq_true] using hterm
    | regular r =>
      have happ : ∀ r2, countStreaming
          (regularAppend sub.now2
            (st.messages ++ [userMessage sub.now sub.input]) r2) = 0 := by
        intro r2
        cases r2 <;>
          (simp only [regularAppend]; rw [countStreaming_append, hcount1]; rfl)
      constructor
      · simp only [submitLedgerStates, if_pos hacc, houtcome]
        intro ms hms
        rcases List.mem_cons.mp hms with rfl | hms2
        · rw [hcount1]
          omega
        · rcases List.mem_singleton.mp hms2 with rfl
          rw [happ r]
          omega
      · simp only [submitStep, handleSubmit, if_pos hacc, houtcome]
        exact happ r
  · constructor
    · simp [submitLedgerStates, hacc]
    · simp only [submitStep, handleSubmit, if_neg hacc]
      exact h0

theorem run_inv : ∀ (subs : List Submission) (st : ChatState),
    countStreaming st.messages = 0 →
    (∀ sub ∈ subs, outcomeTerminated sub.outcome = true) →
    ∀ ms ∈ runLedgerStates subs st, countStreaming ms ≤ 1 := by
  intro subs
  induction subs with
  | nil =>
    intro st _ _ ms hms
    simp [runLedgerStates] at hms
  | cons sub rest ih =>
    intro st h0 hterm ms hms
    rw [runLedgerStates] at hms
    rcases List.mem_append.mp hms with h | h
    · exact (submit_inv sub st h0 (hterm sub (List.mem_cons_self _ _))).1 ms h
    · exact ih (submitStep sub st)
        (submit_inv sub st h0 (hterm sub (List.mem_cons_self _ _))).2
        (fun s hs => hterm s (List.mem_cons_of_mem _ hs)) ms h

/-! ## Claim theorems -/

/-- C1: the frame decoder is claimed to produce the same event sequence
for every chunking of a logical stream, because a trailing partial line
is carried over to the next chunk. The code carries nothing over: each
chunk is split on newlines by itself, so a frame cut by a chunk
boundary is lost. The same logical stream `data: (done frame)\n`
decodes to one `done` event when delivered whole and to no event at all
when cut inside the frame. -/
theorem c1_chunk_boundary_dependence :
    decodeChunks [("data: \x7b\"ty").toList, ("pe\":\"done\"\x7d\n").toList] = [] ∧
    decodeChunks [("data: \x7b\"ty").toList ++ ("pe\":\"done\"\x7d\n").toList] =
      [SseEvent.done] ∧
    decodeChunks [("data: \x7b\"ty").toList, ("pe\":\"done\"\x7d\n").toList] ≠
      decodeChunks [("data: \x7b\"ty").toList ++ ("pe\":\"done\"\x7d\n").toList] := by
  refine ⟨rfl, rfl, fun h => ?_⟩
  rw [show decodeChunks [("data: \x7b\"ty").toList, ("pe\":\"done\"\x7d\n").toList]
        = [] from rfl,
    show decodeChunks [("data: \x7b\"ty").toList ++ ("pe\":\"done\"\x7d\n").toList]
        = [SseEvent.done] from rfl] at h
  exact List.noConfusion h

/-- C3 (counterexample): the normalizer is not idempotent on every
string. On the three-character input `a` backslash `n`, one application
unescapes to `a` newline, and the second application trims the newline
away, giving plain `a`. -/
theorem c3_counterexample :
    cleanMarkdownText (("a\\n").toList) = ("a\n").toList ∧
    cleanMarkdownText (("a\n").toList) = ("a").toList ∧
    cleanMarkdownText (cleanMarkdownText (("a\\n").toList)) ≠
      cleanMarkdownText (("a\\n").toList) :=
  ⟨rfl, rfl, by decide⟩

/-- C3 (amended): the normalizer is idempotent on clean inputs: when
the input is already trimmed, contains no backslash, and is not wrapped
in double quotes, one application is the identity, so a second
application changes nothing. -/
theorem c3_idempotent_on_clean (s : Str) (ht : JsStr.trim s = s)
    (hb : '\\' ∉ s)
    (hq : ¬(JsStr.startsWith ['"'] s = true ∧ JsStr.endsWith ['"'] s = true)) :
    cleanMarkdownText s = s ∧
      cleanMarkdownText (cleanMarkdownText s) = cleanMarkdownText s := by
  have h1 := cleanMarkdownText_eq_self s ht hb hq
  exact ⟨h1, by rw [h1]; exact h1⟩

/-- Witness for C3 (amended) at the clean input `abc`. -/
theorem c3_idempotent_on_clean_witness :
    (JsStr.trim (("abc").toList) = ("abc").toList ∧
      '\\' ∉ ("abc").toList ∧
      ¬(JsStr.startsWith ['"'] (("abc").toList) = true ∧
        JsStr.endsWith ['"'] (("abc").toList) = true)) ∧
    (cleanMarkdownText (("abc").toList) = ("abc").toList ∧
      cleanMarkdownText (cleanMarkdownText (("abc").toList)) =
        cleanMarkdownText (("abc").toList)) :=
  ⟨⟨rfl, by decide, by decide⟩,
    c3_idempotent_on_clean (("abc").toList) rfl (by decide) (by decide)⟩

/-- C6: on the quoted input containing the two-character sequences
backslash-n and backslash-asterisk, the normalizer yields the text with
a real newline, a literal asterisk, and the wrapping quotes removed.
The second conjunct shows the doubled-backslash collapse runs once, not
repeatedly: four backslashes become two. The third shows the specific
unescapes run before the collapse: backslash backslash `n` has its
backslash-`n` suffix unescaped first, so no doubled backslash remains
to collapse. -/
theorem c6_normalizer_unescapes :
    cleanMarkdownText (("\"Hello \\n world\\*\"").toList) =
      ("Hello \n world*").toList ∧
    cleanMarkdownText (("\\\\\\\\").toList) = ("\\\\").toList ∧
    cleanMarkdownText (("\\\\n").toList) = ("\\\n").toList :=
  ⟨rfl, rfl, rfl⟩

/-- C9: a JSON parse failure on a single `data: ` frame is local: the
frame is dropped and every other line of the stream decodes exactly as
it would without the bad frame, in order; the decoder itself is a total
function, so no exception escapes it. -/
theorem c9_parse_failure_isolated (pre post : List Str) (line : Str)
    (hmark : JsStr.startsWith sseDataTag line = true)
    (hbad : Json.jsonParse (line.drop 6) = none) :
    (pre ++ line :: post).filterMap decodeLine =
      pre.filterMap decodeLine ++ post.filterMap decodeLine := by
  have hline : decodeLine line = none := by
    simp only [decodeLine, hmark, if_true, hbad]
  rw [List.filterMap_append, List.filterMap_cons, hline]

/-- Witness for C9: a malformed frame between two valid frames. -/
theorem c9_parse_failure_isolated_witness :
    (JsStr.startsWith sseDataTag (("data: \x7boops").toList) = true ∧
      Json.jsonParse ((("data: \x7boops").toList).drop 6) = none) ∧
    ([("data: \x7b\"type\":\"token\",\"content\":\"a\"\x7d").toList,
      ("data: \x7boops").toList,
      ("data: \x7b\"type\":\"done\"\x7d").toList].filterMap decodeLine =
      [("data: \x7b\"type\":\"token\",\"content\":\"a\"\x7d").toList].filterMap
          decodeLine ++
        [("data: \x7b\"type\":\"done\"\x7d").toList].filterMap decodeLine) :=
  ⟨⟨rfl, rfl⟩,
    c9_parse_failure_isolated
      [("data: \x7b\"type\":\"token\",\"content\":\"a\"\x7d").toList]
      [("data: \x7b\"type\":\"done\"\x7d").toList]
      (("data: \x7boops").toList) rfl rfl⟩

/-- First submission of the C2 counterexample run: the stream delivers
one token frame and then closes with no terminal frame. -/
def c2Sub1 : Submission :=
  { now := 0, now2 := 0, input := ("a").toList,
    outcome := Outcome.streaming (Transport.stream
      [("data: \x7b\"type\":\"token\",\"content\":\"x\"\x7d\n").toList] false) }

/-- Second submission of the C2 counterexample run. -/
def c2Sub2 : Submission :=
  { now := 10, now2 := 10, input := ("b").toList,
    outcome := Outcome.streaming (Transport.stream [] false) }

/-- C2 (counterexample): when a stream closes without a terminal frame,
the bot message keeps `isStreaming = true`; the busy flag is still
cleared, so the next submission is accepted and appends a second open
placeholder — a ledger point with two streaming messages, refuting the
invariant as claimed (which covers closes "with or without a terminal
frame"). -/
theorem c2_counterexample :
    countStreaming (submitStep c2Sub2 (submitStep c2Sub1
      { messages := [], isLoading := false })).messages = 2 ∧
    ¬(∀ ms ∈ runLedgerStates [c2Sub1, c2Sub2] { messages := [], isLoading := false },
        countStreaming ms ≤ 1) := by
  refine ⟨rfl, fun h => ?_⟩
  have hmem : [userMessage 0 (("a").toList),
      { id := 1, text := ("x").toList, sender := Sender.bot,
        sources := some (JValue.arr []), isStreaming := true },
      userMessage 10 (("b").toList),
      botPlaceholder 11] ∈
      runLedgerStates [c2Sub1, c2Sub2] { messages := [], isLoading := false } := by
    rw [show runLedgerStates [c2Sub1, c2Sub2] { messages := [], isLoading := false }
          = [_, _, _, _, [userMessage 0 (("a").toList),
              { id := 1, text := ("x").toList, sender := Sender.bot,
                sources := some (JValue.arr []), isStreaming := true },
              userMessage 10 (("b").toList),
              botPlaceholder 11]] from rfl]
    exact List.mem_cons_of_mem _ (List.mem_cons_of_mem _ (List.mem_cons_of_mem _
      (List.mem_cons_of_mem _ (List.mem_cons_self _ _))))
  have h2 := h _ hmem
  have h3 : countStreaming [userMessage 0 (("a").toList),
      { id := 1, text := ("x").toList, sender := Sender.bot,
        sources := some (JValue.arr []), isStreaming := true },
      userMessage 10 (("b").toList),
      botPlaceholder 11] = 2 := rfl
  omega

/-- C2 (amended): starting from the empty ledger, at most one message
is open at every point of the ledger history, for every run of
submissions in which each streaming outcome delivers a terminal signal
(a done frame, an error frame, or a transport failure) — the condition
the counterexample shows necessary. -/
theorem c2_single_open_invariant (subs : List Submission)
    (hterm : ∀ sub ∈ subs, outcomeTerminated sub.outcome = true) :
    ∀ ms ∈ runLedgerStates subs { messages := [], isLoading := false },
      countStreaming ms ≤ 1 :=
  run_inv subs { messages := [], isLoading := false } rfl hterm

/-- Submission used by the C2 witness: one token frame, then done. -/
def c2WitSub : Submission :=
  { now := 0, now2 := 0, input := ("a").toList,
    outcome := Outcome.streaming (Transport.stream
      [("data: \x7b\"type\":\"token\",\"content\":\"x\"\x7d\n").toList,
       ("data: \x7b\"type\":\"done\"\x7d\n").toList] false) }

/-- Witness for C2 (amended) on a one-submission terminated run. -/
theorem c2_single_open_invariant_witness :
    (∀ sub ∈ [c2WitSub], outcomeTerminated sub.outcome = true) ∧
    (∀ ms ∈ runLedgerStates [c2WitSub] { messages := [], isLoading := false },
      countStreaming ms ≤ 1) :=
  ⟨fun sub hs => by rw [List.mem_singleton.mp hs]; rfl,
    c2_single_open_invariant [c2WitSub]
      (fun sub hs => by rw [List.mem_singleton.mp hs]; rfl)⟩

/-- C4 (counterexample): a token event after the closing `done` event
does modify the closed message. Running token `a` then done leaves the
closed bot message with text `a`; a further token `b` for the same id
overwrites the closed message's text to `ab`. -/
theorem c4_counterexample :
    (List.foldl (applyCb 1) { msgs := [botPlaceholder 1], streamedText := [] }
      [Cb.token (some (JValue.str ['a'])), Cb.done]).msgs.map Message.text
        = [['a']] ∧
    (List.foldl (applyCb 1) { msgs := [botPlaceholder 1], streamedText := [] }
      [Cb.token (some (JValue.str ['a'])), Cb.done]).msgs.map Message.isStreaming
        = [false] ∧
    (List.foldl (applyCb 1) { msgs := [botPlaceholder 1], streamedText := [] }
      [Cb.token (some (JValue.str ['a'])), Cb.done,
       Cb.token (some (JValue.str ['b']))]).msgs.map Message.text
        = [['a', 'b']] ∧
    (['a', 'b'] : Str) ≠ ['a'] :=
  ⟨rfl, rfl, rfl, by decide⟩

/-- C4 (amended): once the closing event has been dispatched, the
ledger is unchanged by the remaining events provided no token, sources,
or error event for the same id follows — later `done` events leave
every message exactly as it was at the close. -/
theorem c4_closed_immutable_without_later_events (bid : Nat)
    (st : StreamFold) (pre post : List Cb) (t : Cb)
    (hterm : isTerminalCb t = true) (hpost : ∀ cb ∈ post, cb = Cb.done) :
    (List.foldl (applyCb bid) st (pre ++ t :: post)).msgs =
      (List.foldl (applyCb bid) st (pre ++ [t])).msgs := by
  have hsplit : pre ++ t :: post = (pre ++ [t]) ++ post := by simp
  rw [hsplit, List.foldl_append]
  apply foldl_done_only bid post hpost
  rw [List.foldl_append]
  exact applyCb_terminal_closes bid (List.foldl (applyCb bid) st pre) t hterm

/-- Witness for C4 (amended): a done event after the close changes
nothing. -/
theorem c4_closed_immutable_witness :
    (isTerminalCb Cb.done = true ∧ (∀ cb ∈ [Cb.done], cb = Cb.done)) ∧
    (List.foldl (applyCb 1) { msgs := [botPlaceholder 1], streamedText := [] }
        ([Cb.token (some (JValue.str ['a']))] ++ Cb.done :: [Cb.done])).msgs =
      (List.foldl (applyCb 1) { msgs := [botPlaceholder 1], streamedText := [] }
        ([Cb.token (some (JValue.str ['a']))] ++ [Cb.done])).msgs :=
  ⟨⟨rfl, fun _cb hcb => List.mem_singleton.mp hcb⟩,
    c4_closed_immutable_without_later_events 1
      { msgs := [botPlaceholder 1], streamedText := [] }
      [Cb.token (some (JValue.str ['a']))] [Cb.done] Cb.done rfl
      (fun _cb hcb => List.mem_singleton.mp hcb)⟩

/-- C7: dispatching the protocol error event sets the bot message's
text to the fixed failure string and clears its streaming flag,
discarding whatever text had accumulated; every message with another
id is exactly unchanged, and the ledger keeps its length. -/
theorem c7_error_event_closes (bid : Nat) (st : StreamFold) (i : Nat)
    (m : Message) (hm : st.msgs[i]? = some m) :
    (applyCb bid st Cb.error).msgs.length = st.msgs.length ∧
    (applyCb bid st Cb.error).msgs[i]? =
      some (if m.id = bid then
        { m with text := streamErrorText, isStreaming := false } else m) := by
  constructor
  · show (st.msgs.map _).length = _
    exact List.length_map ..
  · show (st.msgs.map _)[i]? = _
    rw [List.getElem?_map, hm]
    rfl

/-- Witness for C7: the error event on a two-message ledger whose open
bot message has accumulated the partial text `p`. -/
theorem c7_error_event_closes_witness :
    ([userMessage 0 (("q").toList),
      { botPlaceholder 5 with text := ['p'] }][1]? =
        some { botPlaceholder 5 with text := ['p'] }) ∧
    ((applyCb 5 { msgs := [userMessage 0 (("q").toList),
        { botPlaceholder 5 with text := ['p'] }], streamedText := ['p'] }
        Cb.error).msgs.length =
      [userMessage 0 (("q").toList),
        { botPlaceholder 5 with text := ['p'] }].length ∧
      (applyCb 5 { msgs := [userMessage 0 (("q").toList),
        { botPlaceholder 5 with text := ['p'] }], streamedText := ['p'] }
        Cb.error).msgs[1]? =
      some (if ({ botPlaceholder 5 with text := ['p'] } : Message).id = 5 then
        { { botPlaceholder 5 with text := ['p'] } with
            text := streamErrorText, isStreaming := false }
        else { botPlaceholder 5 with text := ['p'] })) :=
  ⟨rfl, c7_error_event_closes 5
    { msgs := [userMessage 0 (("q").toList),
      { botPlaceholder 5 with text := ['p'] }], streamedText := ['p'] }
    1 { botPlaceholder 5 with text := ['p'] } rfl⟩

/-- C5 (counterexample): on success the appended bot message stores the
returned answer verbatim, not its normalized form: for the answer
`a` backslash `n` the stored text keeps the two-character escape, which
differs from the normalizer's output. -/
theorem c5_counterexample :
    (handleSubmit 0 0 (("q").toList)
      (Outcome.regular (RegularResult.success (("a\\n").toList)
        (some (JValue.arr []))))
      { messages := [], isLoading := false }).state.messages.map Message.text =
      [("q").toList, ("a\\n").toList] ∧
    cleanMarkdownText (("a\\n").toList) = ("a\n").toList ∧
    (("a\\n").toList : Str) ≠ ("a\n").toList :=
  ⟨rfl, rfl, by decide⟩

/-- C5 (amended): on success exactly one closed bot message is
appended, storing the returned answer verbatim and the returned
sources; the normalizer runs at display time, so the rendered text of
that message is the normalized answer. On failure exactly one closed
bot message carrying the fixed failure text is appended and no
exception escapes the submit flow. -/
theorem c5_regular_path_appends (now now2 : Nat) (input : Str)
    (st : ChatState) (answer : Str) (sources : Option JValue)
    (hin : JsStr.trim input ≠ []) (hload : st.isLoading = false) :
    ((handleSubmit now now2 input
        (Outcome.regular (RegularResult.success answer sources)) st).state.messages =
      st.messages ++ [userMessage now input,
        { id := now2 + 1, text := answer, sender := Sender.bot,
          sources := sources, isStreaming := false }] ∧
      renderedText ({ id := now2 + 1, text := answer, sender := Sender.bot,
                      sources := sources, isStreaming := false } : Message) =
        cleanMarkdownText answer) ∧
    (handleSubmit now now2 input
        (Outcome.regular RegularResult.failure) st).state.messages =
      st.messages ++ [userMessage now input,
        { id := now2 + 1, text := regularFailText, sender := Sender.bot,
          sources := none, isStreaming := false }] := by
  have hc : (JsStr.trim input ≠ [] ∧ st.isLoading = false) := ⟨hin, hload⟩
  refine ⟨⟨?_, rfl⟩, ?_⟩ <;>
    · simp only [handleSubmit, if_pos hc, regularAppend]
      rw [List.append_assoc]
      rfl

/-- Witness for C5 (amended) at a concrete accepted submission. -/
theorem c5_regular_path_appends_witness :
    (JsStr.trim (("q").toList) ≠ [] ∧
      ({ messages := [], isLoading := false } : ChatState).isLoading = false) ∧
    (((handleSubmit 0 0 (("q").toList)
        (Outcome.regular (RegularResult.success (("hello").toList) none))
        { messages := [], isLoading := false }).state.messages =
      ({ messages := [], isLoading := false } : ChatState).messages ++
        [userMessage 0 (("q").toList),
          { id := 0 + 1, text := ("hello").toList, sender := Sender.bot,
            sources := none, isStreaming := false }] ∧
      renderedText ({ id := 0 + 1, text := ("hello").toList,
                      sender := Sender.bot, sources := none,
                      isStreaming := false } : Message) =
        cleanMarkdownText (("hello").toList)) ∧
    (handleSubmit 0 0 (("q").toList)
        (Outcome.regular RegularResult.failure)
        { messages := [], isLoading := false }).state.messages =
      ({ messages := [], isLoading := false } : ChatState).messages ++
        [userMessage 0 (("q").toList),
          { id := 0 + 1, text := regularFailText, sender := Sender.bot,
            sources := none, isStreaming := false }]) :=
  ⟨⟨by decide, rfl⟩,
    c5_regular_path_appends 0 0 (("q").toList)
      { messages := [], isLoading := false } (("hello").toList) none
      (by decide) rfl⟩

/-- C8: submitting an empty or whitespace-only query, or submitting
while busy, is a complete no-op: the component state (ledger and busy
flag) is returned untouched and no transport request is issued. -/
theorem c8_reject_is_noop (now now2 : Nat) (input : Str) (o : Outcome)
    (st : ChatState) (h : JsStr.trim input = [] ∨ st.isLoading = true) :
    handleSubmit now now2 input o st = { state := st, requests := [] } := by
  have hneg : ¬(JsStr.trim input ≠ [] ∧ st.isLoading = false) := by
    rintro ⟨hne, hload⟩
    rcases h with h2 | h2
    · exact hne h2
    · rw [h2] at hload
      exact Bool.noConfusion hload
  simp only [handleSubmit, if_neg hneg]

/-- Witness for C8 at the whitespace-only input. -/
theorem c8_reject_is_noop_witness :
    (JsStr.trim (("   ").toList) = [] ∨
      ({ messages := [], isLoading := false } : ChatState).isLoading = true) ∧
    handleSubmit 3 4 (("   ").toList) (Outcome.regular RegularResult.failure)
      { messages := [], isLoading := false } =
      { state := { messages := [], isLoading := false }, requests := [] } :=
  ⟨Or.inl (by decide),
    c8_reject_is_noop 3 4 (("   ").toList) (Outcome.regular RegularResult.failure)
      { messages := [], isLoading := false } (Or.inl (by decide))⟩

/-- C10: an accepted streaming submission appends exactly two messages
— the user message and the bot placeholder — whatever the transport
does (including an immediate HTTP failure): `streamMessage` funnels
every failure into the `onError` callback and never rejects, every
event mutates the placeholder in place, and no separate error message
is ever appended. The freshness hypotheses say the two `Date.now()`
readings do not collide with existing ids. -/
theorem c10_streaming_appends_exactly_two (now now2 : Nat) (input : Str)
    (tr : Transport) (st : ChatState)
    (hin : JsStr.trim input ≠ []) (hload : st.isLoading = false)
    (hfresh : ∀ m ∈ st.messages, m.id ≠ now2 + 1)
    (hnow : now ≠ now2 + 1) :
    ∃ finalBot : Message,
      (handleSubmit now now2 input (Outcome.streaming tr) st).state.messages =
        st.messages ++ [userMessage now input, finalBot] ∧
      finalBot.id = now2 + 1 ∧ finalBot.sender = Sender.bot ∧
      (handleSubmit now now2 input (Outcome.streaming tr) st).requests =
        [{ query := input, stream := true }] := by
  have hc : (JsStr.trim input ≠ [] ∧ st.isLoading = false) := ⟨hin, hload⟩
  have hpre : ∀ m ∈ st.messages ++ [userMessage now input], m.id ≠ now2 + 1 := by
    intro m hm
    rcases List.mem_append.mp hm with h | h
    · exact hfresh m h
    · rcases List.mem_singleton.mp h with rfl
      exact hnow
  obtain ⟨b2, h1, h2, h3⟩ := foldl_prefix_shape (now2 + 1) (streamMessage tr)
    { msgs := (st.messages ++ [userMessage now input]) ++
        [botPlaceholder (now2 + 1)],
      streamedText := [] }
    (st.messages ++ [userMessage now input]) (botPlaceholder (now2 + 1))
    rfl hpre rfl
  refine ⟨b2, ?_, h2, by rw [h3]; rfl, ?_⟩
  · simp only [handleSubmit, if_pos hc, handleStreamingResponse]
    rw [h1, List.append_assoc]
    rfl
  · simp only [handleSubmit, if_pos hc]

/-- Witness for C10: an accepted streaming submission against a failing
transport still appends exactly the two messages. -/
theorem c10_streaming_appends_exactly_two_witness :
    (JsStr.trim (("hi").toList) ≠ [] ∧
      ({ messages := [], isLoading := false } : ChatState).isLoading = false ∧
      (∀ m ∈ ({ messages := [], isLoading := false } : ChatState).messages,
        m.id ≠ 0 + 1) ∧
      (0 : Nat) ≠ 0 + 1) ∧
    (∃ finalBot : Message,
      (handleSubmit 0 0 (("hi").toList) (Outcome.streaming Transport.httpError)
        { messages := [], isLoading := false }).state.messages =
        ({ messages := [], isLoading := false } : ChatState).messages ++
          [userMessage 0 (("hi").toList), finalBot] ∧
      finalBot.id = 0 + 1 ∧ finalBot.sender = Sender.bot ∧
      (handleSubmit 0 0 (("hi").toList) (Outcome.streaming Transport.httpError)
        { messages := [], isLoading := false }).requests =
        [{ query := ("hi").toList, stream := true }]) :=
  ⟨⟨by decide, rfl, by simp, by decide⟩,
    c10_streaming_appends_exactly_two 0 0 (("hi").toList) Transport.httpError
      { messages := [], isLoading := false } (by decide) rfl (by simp)
      (by decide)⟩
